import Mathlib

/-!
Shallow embedding of the TURN client relayed connection (`UDPConn`) from the
repository's client source.  Pure Go functions become Lean functions; the
mutable connection is explicit state passing over a `UDPConn` structure; the
external transaction runner is a parameter giving each exchange's outcome;
byte buffers are `List ℕ`.  The helper trackers (`permissionMap`,
`bindingManager`, `PeriodicTimer`) are declared outside the provided source
and are modelled from the spec where noted.
-/

/-- UDP endpoint: IP plus port, compared by value (spec §3: peer-address
equality is by value). -/
structure UDPAddr where
  ip : ℕ
  port : ℕ
deriving DecidableEq, Repr

/-- Network address as passed to `WriteTo`: either a `*net.UDPAddr` or some
other address kind (the type assertion `addr.(*net.UDPAddr)` fails on the
latter). -/
inductive Addr where
  | udp (a : UDPAddr)
  | other
deriving DecidableEq, Repr

/-- Permission state: `permStateIdle` / `permStatePermitted` in the source. -/
inductive PermState where
  | idle
  | permitted
deriving DecidableEq, Repr

/-- Binding state: `bindingStateIdle` / `bindingStateReady` /
`bindingStateFailed` in the source. -/
inductive BindingState where
  | idle
  | ready
  | failed
deriving DecidableEq, Repr

/-- Channel binding entry: peer address, assigned channel number, state. -/
structure Binding where
  addr : Addr
  number : ℕ
  state : BindingState
deriving DecidableEq, Repr

/-- STUN message classes relevant to the client. -/
inductive MsgClass where
  | request
  | indication
  | successResponse
  | errorResponse
deriving DecidableEq, Repr

/-- STUN methods used by the client. -/
inductive Method where
  | createPermission
  | channelBind
  | refresh
  | send
deriving DecidableEq, Repr

/-- STUN message type: method plus class. -/
structure MsgType where
  method : Method
  cls : MsgClass
deriving DecidableEq, Repr

/-- Response message as seen by the client: its type, and the lifetime
attribute when present (`turn.Lifetime.GetFrom`). -/
structure StunMsg where
  type : MsgType
  lifetimeAttr : Option ℕ
deriving DecidableEq, Repr

/-- Modelled from the spec: outcome of the external transaction runner
`PerformTransaction` (§6), which either returns a transaction error — in
which case no response message exists — or a response message. -/
inductive TxResult where
  | txErr
  | res (m : StunMsg)
deriving DecidableEq, Repr

/-- Transaction outcomes supplied to one `WriteTo` call: at most one
create-permission exchange and one channel-bind exchange happen per call. -/
structure TxEnv where
  permTx : TxResult
  bindTx : TxResult
deriving DecidableEq, Repr

/-- Errors a connection operation can return, by provenance in the source. -/
inductive ConnError where
  | notUDPAddr
  | txFailed
  | errorResponse
  | unexpectedResponse
  | shortBuffer
  | timeoutErr
  | closedConn
  | alreadyClosed
deriving DecidableEq, Repr

/-- Result of the Go `Timeout() bool` method on the returned error:
`timeoutError.Timeout()` returns `true`; the short-buffer, closed-connection
and transaction errors carry no true timeout flag. -/
def ConnError.isTimeout : ConnError → Bool
  | .timeoutErr => true
  | _ => false

/-- Queued inbound datagram (`inboundData` in the source). -/
structure InboundData where
  data : List ℕ
  fromAddr : Addr
deriving DecidableEq, Repr

/-- Modelled from the spec: the binding tracker (§4.2) — address and
channel-number lookups plus a fresh-number allocator; its Go source is not
part of the provided files. -/
structure BindingManager where
  bindings : List Binding
  next : ℕ
deriving DecidableEq, Repr

def BindingManager.findByAddr (m : BindingManager) (a : Addr) : Option Binding :=
  m.bindings.find? (fun b => b.addr = a)

def BindingManager.findByNumber (m : BindingManager) (n : ℕ) : Option Binding :=
  m.bindings.find? (fun b => b.number = n)

/-- Modelled from the spec: `create` allocates a fresh channel number and
registers the binding with initial state Idle (§4.2). -/
def BindingManager.create (m : BindingManager) (a : Addr) : Binding × BindingManager :=
  let b : Binding := ⟨a, m.next, .idle⟩
  (b, ⟨m.bindings ++ [b], m.next + 1⟩)

def BindingManager.deleteByAddr (m : BindingManager) (a : Addr) : BindingManager :=
  ⟨m.bindings.filter (fun b => b.addr ≠ a), m.next⟩

/-- State update through the shared binding entry (`b.setState` in Go mutates
the entry held by the manager). -/
def BindingManager.setStateByAddr (m : BindingManager) (a : Addr) (s : BindingState) :
    BindingManager :=
  ⟨m.bindings.map (fun b => if b.addr = a then { b with state := s } else b), m.next⟩

/-- Modelled from the spec: the permission tracker (§4.1) as an association
list keyed by peer address; its Go source is not part of the provided
files. -/
def PermMap := List (Addr × PermState)

def permFind : List (Addr × PermState) → Addr → Option PermState
  | [], _ => none
  | (b, s) :: rest, a => if b = a then some s else permFind rest a

def permInsert : List (Addr × PermState) → Addr → PermState → List (Addr × PermState)
  | [], a, s => [(a, s)]
  | (b, t) :: rest, a, s =>
      if b = a then (a, s) :: rest else (b, t) :: permInsert rest a s

def permDelete (pm : List (Addr × PermState)) (a : Addr) : List (Addr × PermState) :=
  pm.filter (fun e => e.1 ≠ a)

/-- Modelled from the spec: a periodic timer carrying an opaque identity and a
fixed interval handed to it at construction (§4.3, design note on
timer-driven periodic work); its Go source is not part of the provided
files. -/
structure PeriodicTimer where
  id : ℕ
  interval : ℕ
deriving DecidableEq, Repr

def timerIDRefreshAlloc : ℕ := 0
def timerIDRefreshPerms : ℕ := 1

/-- Fixed permission-refresh period (`permRefreshInterval`), in seconds. -/
def permRefreshInterval : ℕ := 120

/-- Largest `int64` value: `math.MaxInt64`, the timer duration used for the
"no deadline" case. -/
def maxInt64 : ℤ := 2 ^ 63 - 1

/-- Connection state of `UDPConn`, with the mutable fields made explicit. -/
structure UDPConn where
  relayedAddr : Addr
  permMap : List (Addr × PermState)
  bindingMgr : BindingManager
  lifetime : ℕ
  refreshAllocTimer : PeriodicTimer
  refreshPermsTimer : PeriodicTimer
  readQueue : List InboundData
  readTimerD : ℤ
  closeChClosed : Bool
  closedFlag : Bool
deriving DecidableEq, Repr

/-- Construction parameters of `NewUDPConn` that the model tracks. -/
structure UDPConnConfig where
  relayedAddr : Addr
  lifetime : ℕ
deriving DecidableEq, Repr

/-- Constructor `NewUDPConn`: fresh trackers, the read timer armed with `math.MaxInt64`,
and the allocation-refresh timer constructed with interval `lifetime / 2`
(the permission timer with the fixed `permRefreshInterval`). -/
def newUDPConn (cfg : UDPConnConfig) : UDPConn :=
  { relayedAddr := cfg.relayedAddr
    permMap := []
    bindingMgr := ⟨[], 0x4000⟩
    lifetime := cfg.lifetime
    refreshAllocTimer := ⟨timerIDRefreshAlloc, cfg.lifetime / 2⟩
    refreshPermsTimer := ⟨timerIDRefreshPerms, permRefreshInterval⟩
    readQueue := []
    readTimerD := maxInt64
    closeChClosed := false
    closedFlag := false }

/-- Observable wire activity of one `WriteTo` call. -/
inductive WireEvent where
  | createPermReq (a : Addr)
  | channelBindReq (a : Addr) (number : ℕ)
  | refreshReq (lifetime : ℕ) (dontWait : Bool)
  | sentIndication (raw : List ℕ)
  | sentChannelData (raw : List ℕ)
deriving DecidableEq, Repr

/-- Return value of `WriteTo`: `(n, nil)`, `(n, err)` (always `(0, err)` in
the source), or a runtime panic (nil-pointer dereference). -/
inductive WriteResult where
  | ok (n : ℕ)
  | err (n : ℕ) (e : ConnError)
  | panicked
deriving DecidableEq, Repr

structure WriteOut where
  res : WriteResult
  conn : UDPConn
  events : List WireEvent
  sent : Option (List ℕ)
deriving DecidableEq, Repr

/-- Error result of `createPermissions`: the transaction-runner error when
the exchange fails outright, or an error built from the response when the
response class is an error response; `none` on any other response. -/
def createPermErr : TxResult → Option ConnError
  | .txErr => some .txFailed
  | .res m => if m.type.cls = MsgClass.errorResponse then some .errorResponse else none

/-- Success type a channel-bind response is compared against:
`stun.NewType(stun.MethodChannelBind, stun.ClassSuccessResponse)`. -/
def channelBindSuccessType : MsgType := ⟨.channelBind, .successResponse⟩

/-- Pad a byte string to a 4-byte boundary, as STUN attribute values are. -/
def pad4 (l : List ℕ) : List ℕ := l ++ List.replicate ((4 - l.length % 4) % 4) 0

/-- Modelled from the spec: type-length-value encoding of one STUN attribute
(the message builder is an external collaborator, §6). -/
def attrTLV (t : ℕ) (v : List ℕ) : List ℕ :=
  [t / 256 % 256, t % 256, v.length / 256 % 256, v.length % 256] ++ pad4 v

/-- Modelled from the spec: the wire bytes of the send-indication message
built by `WriteTo` — 20-byte STUN header, then the requested-transport,
data, xor-peer-address and fingerprint attributes in source order. -/
def encodeIndication (p : List ℕ) (a : UDPAddr) : List ℕ :=
  let attrs :=
    attrTLV 0x19 [17, 0, 0, 0] ++
    attrTLV 0x13 p ++
    attrTLV 0x12 [0, 1, a.port / 256 % 256, a.port % 256,
      a.ip / 16777216 % 256, a.ip / 65536 % 256, a.ip / 256 % 256, a.ip % 256] ++
    attrTLV 0x8028 [0, 0, 0, 0]
  [0, 0x16, attrs.length / 256 % 256, attrs.length % 256,
    0x21, 0x12, 0xA4, 0x42] ++ List.replicate 12 0 ++ attrs

/-- Modelled from the spec: channel-data framing (`turn.ChannelData.Encode`)
— a 4-byte header (channel number, payload length, both big-endian) followed
by the payload. -/
def encodeChannelData (number : ℕ) (p : List ℕ) : List ℕ :=
  [number / 256 % 256, number % 256, p.length / 256 % 256, p.length % 256] ++ p

/-- Embeds `sendChannelData`: frame the payload with the channel number and hand the
raw bytes to the transport, whose write returns the byte count written. -/
def sendChannelData (c : UDPConn) (evs : List WireEvent) (p : List ℕ) (number : ℕ) :
    WriteOut :=
  let raw := encodeChannelData number p
  ⟨.ok raw.length, c, evs ++ [.sentChannelData raw], some raw⟩

/-- Send path of `WriteTo` that wraps the payload in a send indication and
hands it to the transport (fire-and-forget). -/
def sendViaIndication (c : UDPConn) (evs : List WireEvent) (p : List ℕ) (a : UDPAddr) :
    WriteOut :=
  let raw := encodeIndication p a
  ⟨.ok raw.length, c, evs ++ [.sentIndication raw], some raw⟩

/-- Binding phase of `WriteTo` (after the permission phase succeeded): find or
create the binding; if it is Ready, send channel data; otherwise, when Idle,
run `bind` — on a transaction-runner error `bind` deletes the binding and
then reads the response of the failed transaction, which does not exist
(a nil `*stun.Message` dereference: the call panics); on a response whose
type is not the channel-bind success type, `bind` returns an error that
`WriteTo` logs, marking the binding Failed — and in every non-panicking case
fall through to the indication send. -/
def bindPhaseWith (c1 : UDPConn) (env : TxEnv) (p : List ℕ) (a : UDPAddr)
    (evs : List WireEvent) (b : Binding) : WriteOut :=
  if b.state = BindingState.ready then
    sendChannelData c1 evs p b.number
  else
    if b.state = BindingState.idle then
      match env.bindTx with
      | .txErr =>
          ⟨.panicked,
            { c1 with bindingMgr := c1.bindingMgr.deleteByAddr (Addr.udp a) },
            evs ++ [.channelBindReq (Addr.udp a) b.number], none⟩
      | .res m =>
          let c2 :=
            if m.type = channelBindSuccessType then
              { c1 with bindingMgr := c1.bindingMgr.setStateByAddr (Addr.udp a) .ready }
            else
              { c1 with bindingMgr := c1.bindingMgr.setStateByAddr (Addr.udp a) .failed }
          sendViaIndication c2 (evs ++ [.channelBindReq (Addr.udp a) b.number]) p a
    else
      sendViaIndication c1 evs p a

def writeToBindPhase (c : UDPConn) (env : TxEnv) (p : List ℕ) (a : UDPAddr)
    (evs : List WireEvent) : WriteOut :=
  match c.bindingMgr.findByAddr (Addr.udp a) with
  | some b => bindPhaseWith c env p a evs b
  | none =>
      let (b, mgr) := c.bindingMgr.create (Addr.udp a)
      bindPhaseWith { c with bindingMgr := mgr } env p a evs b

/-- Embeds `WriteTo`: reject non-UDP addresses; ensure a permission entry exists
(inserting an Idle one when absent); when the entry is Idle, run the
create-permission exchange — on failure delete the entry and return
`(0, err)` — otherwise mark it Permitted; then run the binding phase. -/
def writeTo (c : UDPConn) (env : TxEnv) (p : List ℕ) (addr : Addr) : WriteOut :=
  match addr with
  | .other => ⟨.err 0 .notUDPAddr, c, [], none⟩
  | .udp a =>
    match permFind c.permMap addr with
    | some .permitted => writeToBindPhase c env p a []
    | some .idle =>
        match createPermErr env.permTx with
        | some e =>
            ⟨.err 0 e, { c with permMap := permDelete c.permMap addr },
              [.createPermReq addr], none⟩
        | none =>
            writeToBindPhase { c with permMap := permInsert c.permMap addr .permitted }
              env p a [.createPermReq addr]
    | none =>
        match createPermErr env.permTx with
        | some e =>
            ⟨.err 0 e,
              { c with permMap := permDelete (permInsert c.permMap addr .idle) addr },
              [.createPermReq addr], none⟩
        | none =>
            writeToBindPhase
              { c with permMap := permInsert (permInsert c.permMap addr .idle) addr .permitted }
              env p a [.createPermReq addr]

/-- Return value of `ReadFrom`: data with a source address, an error (the
source always pairs errors with `n = 0` and a nil address), or a block on
the select with no branch ready. -/
inductive ReadResult where
  | ok (n : ℕ) (fromAddr : Addr)
  | fail (e : ConnError)
  | blocks
deriving DecidableEq, Repr

/-- Byte count `ReadFrom` hands back to the caller: every error path in the
source is a `return 0, nil, err`. -/
def ReadResult.retN : ReadResult → ℕ
  | .ok n _ => n
  | .fail _ => 0
  | .blocks => 0

structure ReadOut where
  res : ReadResult
  copied : List ℕ
  conn : UDPConn
deriving DecidableEq, Repr

/-- Embeds `ReadFrom` with a buffer of length `bufLen`, `elapsed` time units after
the read timer was last reset.  The Go select is nondeterministic among
ready branches; this determinization prefers queued data, then the elapsed
timer, then the close channel (theorems below pin the branch through their
hypotheses).  Dequeuing copies `copy(p, data)` bytes — `min bufLen (data
length)` — into the caller's buffer before the length check, and a too-long
datagram yields `(0, nil, io.ErrShortBuffer)` with the datagram no longer
queued. -/
def readFrom (c : UDPConn) (bufLen : ℕ) (elapsed : ℤ) : ReadOut :=
  if c.closedFlag then ⟨.fail .closedConn, [], c⟩
  else
    match c.readQueue with
    | ib :: rest =>
        let c1 := { c with readQueue := rest }
        let n := min bufLen ib.data.length
        if n < ib.data.length then ⟨.fail .shortBuffer, ib.data.take bufLen, c1⟩
        else ⟨.ok n ib.fromAddr, ib.data.take bufLen, c1⟩
    | [] =>
        if c.readTimerD ≤ elapsed then ⟨.fail .timeoutErr, [], c⟩
        else if c.closeChClosed then
          ⟨.fail .closedConn, [], { c with closedFlag := true }⟩
        else ⟨.blocks, [], c⟩

/-- Embeds `SetReadDeadline`: the zero time (`noDeadline`, here `none`) arms the
read timer with `math.MaxInt64`; any other time arms it with
`time.Until(t) = t - now`, which is non-positive for a deadline in the
past. -/
def setReadDeadline (c : UDPConn) (now : ℤ) (t : Option ℤ) : UDPConn :=
  match t with
  | none => { c with readTimerD := maxInt64 }
  | some tt => { c with readTimerD := tt - now }

/-- Observable side effects of `Close`. -/
inductive CloseEffect where
  | stopAllocTimer
  | stopPermsTimer
  | teardownRefresh
  | deallocated (a : Addr)
deriving DecidableEq, Repr

/-- Embeds `Close`: stop both refresh timers; if the close channel is already
closed, fail with the "already closed" error; otherwise close it, perform
the fire-and-forget zero-lifetime refresh, notify `OnDeallocated` with the
relayed address, and return nil. -/
def closeConn (c : UDPConn) : Option ConnError × UDPConn × List CloseEffect :=
  if c.closeChClosed then
    (some .alreadyClosed, c, [.stopAllocTimer, .stopPermsTimer])
  else
    (none, { c with closeChClosed := true },
      [.stopAllocTimer, .stopPermsTimer, .teardownRefresh, .deallocated c.relayedAddr])

/-- Embeds `refreshAllocation`: on a transaction-runner error, log and return; when
`dontWait` is set, return without reading a response; otherwise read the
lifetime attribute from the response — absent attribute is logged and
ignored — and store it as the new allocation lifetime. -/
def refreshAllocation (c : UDPConn) (lifetime : ℕ) (dontWait : Bool) (tx : TxResult) :
    UDPConn × List WireEvent :=
  match tx with
  | .txErr => (c, [.refreshReq lifetime dontWait])
  | .res m =>
      if dontWait then (c, [.refreshReq lifetime dontWait])
      else
        match m.lifetimeAttr with
        | none => (c, [.refreshReq lifetime dontWait])
        | some lt => ({ c with lifetime := lt }, [.refreshReq lifetime dontWait])

/-- Embeds `onRefreshTimers`: the shared timer callback reads the current lifetime
and dispatches on the timer identity (only the allocation timer changes the
modelled state; the permission timer re-issues permissions in bulk). -/
def onRefreshTimers (c : UDPConn) (id : ℕ) (tx : TxResult) : UDPConn :=
  if id = timerIDRefreshAlloc then (refreshAllocation c c.lifetime false tx).1
  else c

/-- Delay until the allocation-refresh timer next fires: the periodic timer
re-arms itself with the interval it was constructed with. -/
def nextAllocRefreshDelay (c : UDPConn) : ℕ := c.refreshAllocTimer.interval

/-- Concrete fresh connection used by the concrete-input theorems. -/
def connA : UDPConn := newUDPConn ⟨.udp ⟨9, 9⟩, 600⟩

/-- Concrete connection with two queued inbound datagrams. -/
def queuedConn : UDPConn :=
  { connA with readQueue := [⟨[1, 2, 3], .udp ⟨1, 2⟩⟩, ⟨[4], .udp ⟨3, 4⟩⟩] }

/-- Concrete Ready binding for peer 1:2 with channel number 0x4000. -/
def readyBinding : Binding := ⟨Addr.udp ⟨1, 2⟩, 0x4000, .ready⟩

/-- Concrete connection holding a permission and a Ready binding for peer
1:2. -/
def readyConn : UDPConn :=
  { connA with
    permMap := [(Addr.udp ⟨1, 2⟩, PermState.permitted)]
    bindingMgr := ⟨[readyBinding], 0x4001⟩ }

lemma permFind_permDelete (pm : List (Addr × PermState)) (a : Addr) :
    permFind (permDelete pm a) a = none := by
  induction pm with
  | nil => rfl
  | cons e rest ih =>
      by_cases h : e.1 = a
      · simpa [permDelete, h] using ih
      · simpa [permDelete, permFind, h] using ih

lemma bindPhaseWith_events (c1 : UDPConn) (env : TxEnv) (p : List ℕ) (a : UDPAddr)
    (evs : List WireEvent) (b : Binding) :
    ∃ tl, (bindPhaseWith c1 env p a evs b).events = evs ++ tl := by
  unfold bindPhaseWith sendChannelData sendViaIndication
  split
  · exact ⟨_, rfl⟩
  · split
    · cases env.bindTx with
      | txErr => exact ⟨_, rfl⟩
      | res m =>
          exact ⟨[.channelBindReq (Addr.udp a) b.number,
            .sentIndication (encodeIndication p a)], by simp⟩
    · exact ⟨_, rfl⟩

lemma writeToBindPhase_events (c : UDPConn) (env : TxEnv) (p : List ℕ) (a : UDPAddr)
    (evs : List WireEvent) :
    ∃ tl, (writeToBindPhase c env p a evs).events = evs ++ tl := by
  unfold writeToBindPhase
  cases h : c.bindingMgr.findByAddr (Addr.udp a) with
  | none => exact bindPhaseWith_events _ env p a evs _
  | some b => exact bindPhaseWith_events _ env p a evs _

/-- C3: once the binding for a peer address is Ready (the permission being in
place), `WriteTo` to that address frames the payload with that binding's
channel number, hands it to the transport, and leaves the connection state
unchanged — so every subsequent write behaves identically and no
send-indication message is emitted for that address. -/
theorem writeTo_ready_uses_channelData (c : UDPConn) (env : TxEnv) (p : List ℕ)
    (a : UDPAddr) (b : Binding)
    (hperm : permFind c.permMap (Addr.udp a) = some PermState.permitted)
    (hb : c.bindingMgr.findByAddr (Addr.udp a) = some b)
    (hready : b.state = BindingState.ready) :
    writeTo c env p (Addr.udp a) =
      ⟨.ok (4 + p.length), c, [.sentChannelData (encodeChannelData b.number p)],
        some (encodeChannelData b.number p)⟩ := by
  simp [writeTo, hperm, writeToBindPhase, hb, bindPhaseWith, hready, sendChannelData,
    encodeChannelData]
  omega

theorem writeTo_ready_uses_channelData_witness :
    permFind readyConn.permMap (Addr.udp ⟨1, 2⟩) = some PermState.permitted ∧
      readyConn.bindingMgr.findByAddr (Addr.udp ⟨1, 2⟩) = some readyBinding ∧
      readyBinding.state = BindingState.ready ∧
      writeTo readyConn ⟨.txErr, .txErr⟩ [7, 8] (Addr.udp ⟨1, 2⟩) =
        ⟨.ok 6, readyConn, [.sentChannelData (encodeChannelData 0x4000 [7, 8])],
          some (encodeChannelData 0x4000 [7, 8])⟩ :=
  ⟨by decide, by decide, by decide,
    writeTo_ready_uses_channelData readyConn ⟨.txErr, .txErr⟩ [7, 8] ⟨1, 2⟩
      readyBinding (by decide) (by decide) (by decide)⟩

/-- C4: when `ReadFrom` dequeues a datagram longer than the caller's buffer,
it returns the short-buffer error with byte count 0 — the datagram is not
partially delivered as a success. -/
theorem readFrom_short_buffer (c : UDPConn) (ib : InboundData) (rest : List InboundData)
    (bufLen : ℕ) (elapsed : ℤ)
    (hopen : c.closedFlag = false)
    (hq : c.readQueue = ib :: rest)
    (hlen : bufLen < ib.data.length) :
    (readFrom c bufLen elapsed).res = .fail .shortBuffer ∧
      (readFrom c bufLen elapsed).res.retN = 0 := by
  have hmin : min bufLen ib.data.length < ib.data.length := by omega
  simp [readFrom, hopen, hq, hmin, ReadResult.retN]

theorem readFrom_short_buffer_witness :
    queuedConn.closedFlag = false ∧
      queuedConn.readQueue = [⟨[1, 2, 3], .udp ⟨1, 2⟩⟩, ⟨[4], .udp ⟨3, 4⟩⟩] ∧
      (2 : ℕ) < 3 ∧
      (readFrom queuedConn 2 0).res = .fail .shortBuffer ∧
      (readFrom queuedConn 2 0).res.retN = 0 :=
  ⟨by decide, by decide, by decide,
    readFrom_short_buffer queuedConn ⟨[1, 2, 3], .udp ⟨1, 2⟩⟩ [⟨[4], .udp ⟨3, 4⟩⟩] 2 0
      (by decide) (by decide) (by decide)⟩

/-- C5: the failing short-buffer read is not atomic — the dequeued datagram
is removed from the read queue for good (not re-queued), and its first
`bufLen` bytes have already been copied into the caller's buffer although
the returned byte count is 0. -/
theorem readFrom_short_buffer_not_atomic (c : UDPConn) (ib : InboundData)
    (rest : List InboundData) (bufLen : ℕ) (elapsed : ℤ)
    (hopen : c.closedFlag = false)
    (hq : c.readQueue = ib :: rest)
    (hlen : bufLen < ib.data.length) :
    (readFrom c bufLen elapsed).conn.readQueue = rest ∧
      (readFrom c bufLen elapsed).copied = ib.data.take bufLen ∧
      (readFrom c bufLen elapsed).copied.length = bufLen ∧
      (readFrom c bufLen elapsed).res.retN = 0 := by
  have hmin : min bufLen ib.data.length < ib.data.length := by omega
  simp [readFrom, hopen, hq, hmin, ReadResult.retN, List.length_take]
  omega

theorem readFrom_short_buffer_not_atomic_witness :
    (2 : ℕ) < 3 ∧
      (readFrom queuedConn 2 0).conn.readQueue = [⟨[4], .udp ⟨3, 4⟩⟩] ∧
      (readFrom queuedConn 2 0).copied = [1, 2] ∧
      (readFrom queuedConn 2 0).res.retN = 0 := by
  have h := readFrom_short_buffer_not_atomic queuedConn ⟨[1, 2, 3], .udp ⟨1, 2⟩⟩
    [⟨[4], .udp ⟨3, 4⟩⟩] 2 0 (by decide) (by decide) (by decide)
  exact ⟨by decide, h.1, by simpa using h.2.1, h.2.2.2⟩

/-- C1: evaluating `WriteTo` at an input where the channel-bind transaction
runner fails — `bind` lacks a return after the failed transaction, deletes
the binding, and then reads the response message of the failed transaction,
which does not exist (a nil `*stun.Message` dereference): the call panics
instead of logging the failure, marking the binding Failed and falling back
to the send-indication path, contradicting the claim. -/
theorem writeTo_bind_txerr_panics :
    (writeTo connA ⟨.res ⟨⟨.createPermission, .successResponse⟩, none⟩, .txErr⟩
        [1, 2, 3] (Addr.udp ⟨1, 2⟩)).res = .panicked ∧
      (writeTo connA ⟨.res ⟨⟨.createPermission, .successResponse⟩, none⟩, .txErr⟩
        [1, 2, 3] (Addr.udp ⟨1, 2⟩)).sent = none ∧
      (writeTo connA ⟨.res ⟨⟨.createPermission, .successResponse⟩, none⟩, .txErr⟩
          [1, 2, 3] (Addr.udp ⟨1, 2⟩)).conn.bindingMgr.findByAddr (Addr.udp ⟨1, 2⟩) =
        none := by
  decide

lemma writeTo_first_event (c : UDPConn) (env : TxEnv) (p : List ℕ) (a : UDPAddr)
    (hperm : permFind c.permMap (Addr.udp a) = none) :
    ((writeTo c env p (Addr.udp a)).events).head? =
      some (.createPermReq (Addr.udp a)) := by
  obtain ⟨tl, htl⟩ := writeToBindPhase_events
    { c with permMap := permInsert (permInsert c.permMap (Addr.udp a) PermState.idle) (Addr.udp a) PermState.permitted }
    env p a [.createPermReq (Addr.udp a)]
  cases hcp : createPermErr env.permTx with
  | some e => simp [writeTo, hperm, hcp]
  | none => simp [writeTo, hperm, hcp, htl]

/-- C2: when the create-permission exchange triggered by `WriteTo` fails, the
write aborts with `(0, err)` carrying the transaction error, the permission
entry for the address is deleted, and a later `WriteTo` to the same address
starts over with a fresh create-permission exchange. -/
theorem writeTo_perm_failure_deletes (c : UDPConn) (env : TxEnv) (p : List ℕ)
    (a : UDPAddr) (e : ConnError)
    (hperm : permFind c.permMap (Addr.udp a) = none ∨
      permFind c.permMap (Addr.udp a) = some PermState.idle)
    (hfail : createPermErr env.permTx = some e) :
    (writeTo c env p (Addr.udp a)).res = .err 0 e ∧
      (writeTo c env p (Addr.udp a)).events = [.createPermReq (Addr.udp a)] ∧
      (writeTo c env p (Addr.udp a)).sent = none ∧
      permFind (writeTo c env p (Addr.udp a)).conn.permMap (Addr.udp a) = none ∧
      ∀ (env2 : TxEnv) (p2 : List ℕ),
        ((writeTo (writeTo c env p (Addr.udp a)).conn env2 p2 (Addr.udp a)).events).head? =
          some (.createPermReq (Addr.udp a)) := by
  rcases hperm with h | h
  · have hw : writeTo c env p (Addr.udp a) =
        ⟨.err 0 e,
          { c with permMap :=
              permDelete (permInsert c.permMap (Addr.udp a) .idle) (Addr.udp a) },
          [.createPermReq (Addr.udp a)], none⟩ := by
      simp [writeTo, h, hfail]
    rw [hw]
    exact ⟨rfl, rfl, rfl, permFind_permDelete _ _,
      fun env2 p2 => writeTo_first_event _ env2 p2 a (permFind_permDelete _ _)⟩
  · have hw : writeTo c env p (Addr.udp a) =
        ⟨.err 0 e, { c with permMap := permDelete c.permMap (Addr.udp a) },
          [.createPermReq (Addr.udp a)], none⟩ := by
      simp [writeTo, h, hfail]
    rw [hw]
    exact ⟨rfl, rfl, rfl, permFind_permDelete _ _,
      fun env2 p2 => writeTo_first_event _ env2 p2 a (permFind_permDelete _ _)⟩

theorem writeTo_perm_failure_deletes_witness :
    permFind connA.permMap (Addr.udp ⟨1, 2⟩) = none ∧
      createPermErr (TxResult.txErr) = some ConnError.txFailed ∧
      (writeTo connA ⟨.txErr, .txErr⟩ [5] (Addr.udp ⟨1, 2⟩)).res =
        .err 0 .txFailed ∧
      permFind (writeTo connA ⟨.txErr, .txErr⟩ [5] (Addr.udp ⟨1, 2⟩)).conn.permMap
        (Addr.udp ⟨1, 2⟩) = none ∧
      ((writeTo (writeTo connA ⟨.txErr, .txErr⟩ [5] (Addr.udp ⟨1, 2⟩)).conn
          ⟨.txErr, .txErr⟩ [6] (Addr.udp ⟨1, 2⟩)).events).head? =
        some (.createPermReq (Addr.udp ⟨1, 2⟩)) := by
  have h := writeTo_perm_failure_deletes connA ⟨.txErr, .txErr⟩ [5] ⟨1, 2⟩
    ConnError.txFailed (Or.inl (by decide)) (by decide)
  exact ⟨by decide, by decide, h.1, h.2.2.2.1, h.2.2.2.2 ⟨.txErr, .txErr⟩ [6]⟩

lemma pad4_length_ge (p : List ℕ) : p.length ≤ (pad4 p).length := by
  simp [pad4]

lemma encodeIndication_length_gt (p : List ℕ) (a : UDPAddr) :
    p.length < (encodeIndication p a).length := by
  simp [encodeIndication, attrTLV, pad4]
  omega

lemma encodeChannelData_length (num : ℕ) (p : List ℕ) :
    (encodeChannelData num p).length = 4 + p.length := by
  simp [encodeChannelData]
  omega

lemma bindPhaseWith_wire_length (c1 : UDPConn) (env : TxEnv) (p : List ℕ) (a : UDPAddr)
    (evs : List WireEvent) (b : Binding) (n : ℕ)
    (hok : (bindPhaseWith c1 env p a evs b).res = .ok n) :
    Option.map List.length (bindPhaseWith c1 env p a evs b).sent = some n ∧
      p.length < n := by
  have hch := encodeChannelData_length b.number p
  have hind := encodeIndication_length_gt p a
  by_cases hr : b.state = BindingState.ready
  · simp [bindPhaseWith, hr, sendChannelData] at hok ⊢
    refine ⟨?_, ?_⟩ <;> omega
  · by_cases hi : b.state = BindingState.idle
    · cases htx : env.bindTx with
      | txErr => simp [bindPhaseWith, hr, hi, htx] at hok
      | res m =>
          simp [bindPhaseWith, hr, hi, htx, sendViaIndication] at hok ⊢
          refine ⟨?_, ?_⟩ <;> omega
    · simp [bindPhaseWith, hr, hi, sendViaIndication] at hok ⊢
      refine ⟨?_, ?_⟩ <;> omega

lemma writeToBindPhase_wire_length (c : UDPConn) (env : TxEnv) (p : List ℕ)
    (a : UDPAddr) (evs : List WireEvent) (n : ℕ)
    (hok : (writeToBindPhase c env p a evs).res = .ok n) :
    Option.map List.length (writeToBindPhase c env p a evs).sent = some n ∧
      p.length < n := by
  unfold writeToBindPhase at hok ⊢
  cases h : c.bindingMgr.findByAddr (Addr.udp a) with
  | some b =>
      rw [h] at hok
      exact bindPhaseWith_wire_length _ env p a evs b n hok
  | none =>
      rw [h] at hok
      exact bindPhaseWith_wire_length _ env p a evs _ n hok

/-- C6: whenever `WriteTo` succeeds, the byte count it returns is the length
of the encoded wire message it handed to the transport (send indication or
channel-data frame, headers included), which is strictly larger than — in
particular never equal to — the caller's payload length. -/
theorem writeTo_returns_wire_length (c : UDPConn) (env : TxEnv) (p : List ℕ)
    (addr : Addr) (n : ℕ) (hok : (writeTo c env p addr).res = .ok n) :
    Option.map List.length (writeTo c env p addr).sent = some n ∧ p.length < n := by
  cases addr with
  | other => simp [writeTo] at hok
  | udp a =>
      unfold writeTo at hok ⊢
      cases hp : permFind c.permMap (Addr.udp a) with
      | some s =>
          cases s with
          | permitted =>
              rw [hp] at hok
              exact writeToBindPhase_wire_length _ env p a _ n hok
          | idle =>
              rw [hp] at hok
              cases hcp : createPermErr env.permTx with
              | some e => rw [hcp] at hok; simp at hok
              | none =>
                  rw [hcp] at hok
                  exact writeToBindPhase_wire_length _ env p a _ n hok
      | none =>
          rw [hp] at hok
          cases hcp : createPermErr env.permTx with
          | some e => rw [hcp] at hok; simp at hok
          | none =>
              rw [hcp] at hok
              exact writeToBindPhase_wire_length _ env p a _ n hok

theorem writeTo_returns_wire_length_witness :
    (writeTo readyConn ⟨.txErr, .txErr⟩ [7, 8] (Addr.udp ⟨1, 2⟩)).res = .ok 6 ∧
      Option.map List.length
        (writeTo readyConn ⟨.txErr, .txErr⟩ [7, 8] (Addr.udp ⟨1, 2⟩)).sent = some 6 ∧
      ([7, 8] : List ℕ).length < 6 :=
  ⟨by decide,
    (writeTo_returns_wire_length readyConn ⟨.txErr, .txErr⟩ [7, 8]
      (Addr.udp ⟨1, 2⟩) 6 (by decide)).1,
    (writeTo_returns_wire_length readyConn ⟨.txErr, .txErr⟩ [7, 8]
      (Addr.udp ⟨1, 2⟩) 6 (by decide)).2⟩

/-- C7: the first `Close` returns nil and performs the fire-and-forget
teardown refresh and the `OnDeallocated(relayedAddr)` notification; once the
close channel is closed, every later `Close` returns the "already closed"
error and performs neither effect, so both happen exactly once. -/
theorem close_first_only (c : UDPConn) :
    (c.closeChClosed = false →
      closeConn c = (none, { c with closeChClosed := true },
        [.stopAllocTimer, .stopPermsTimer, .teardownRefresh,
          .deallocated c.relayedAddr])) ∧
      (c.closeChClosed = true →
        closeConn c = (some .alreadyClosed, c, [.stopAllocTimer, .stopPermsTimer]) ∧
          CloseEffect.teardownRefresh ∉ (closeConn c).2.2 ∧
          ∀ a, CloseEffect.deallocated a ∉ (closeConn c).2.2) ∧
      (closeConn c).2.1.closeChClosed = true := by
  by_cases h : c.closeChClosed <;>
    simp [closeConn, h]

theorem close_first_only_witness :
    connA.closeChClosed = false ∧
      closeConn connA = (none, { connA with closeChClosed := true },
        [.stopAllocTimer, .stopPermsTimer, .teardownRefresh,
          .deallocated connA.relayedAddr]) ∧
      (closeConn connA).2.1.closeChClosed = true ∧
      closeConn (closeConn connA).2.1 =
        (some .alreadyClosed, (closeConn connA).2.1,
          [.stopAllocTimer, .stopPermsTimer]) :=
  ⟨by decide, (close_first_only connA).1 (by decide), by decide,
    ((close_first_only (closeConn connA).2.1).2.1 (by decide)).1⟩

/-- C8: arming the read deadline with a past time makes the next `ReadFrom`
(with no data queued) return the timeout-kind error immediately — an error
whose `Timeout()` is true while the short-buffer, closed-connection and
transaction errors report false — and arming it with the zero time arms the
read timer with `math.MaxInt64`, so no `ReadFrom` before that duration
elapses ever times out. -/
theorem setReadDeadline_semantics (c : UDPConn) (now tt elapsed : ℤ) (bufLen : ℕ)
    (hopen : c.closedFlag = false) (hnoclose : c.closeChClosed = false)
    (hq : c.readQueue = []) (he : 0 ≤ elapsed) :
    (tt ≤ now →
      (readFrom (setReadDeadline c now (some tt)) bufLen elapsed).res =
        .fail .timeoutErr) ∧
      ConnError.timeoutErr.isTimeout = true ∧
      ConnError.shortBuffer.isTimeout = false ∧
      ConnError.closedConn.isTimeout = false ∧
      ConnError.txFailed.isTimeout = false ∧
      ConnError.errorResponse.isTimeout = false ∧
      (elapsed < maxInt64 →
        (readFrom (setReadDeadline c now none) bufLen elapsed).res = .blocks) := by
  refine ⟨?_, rfl, rfl, rfl, rfl, rfl, ?_⟩
  · intro h
    have hd : tt - now ≤ elapsed := le_trans (sub_nonpos.mpr h) he
    simp [setReadDeadline, readFrom, hopen, hq, hd]
  · intro h
    have hd : ¬ (maxInt64 ≤ elapsed) := not_le.mpr h
    simp [setReadDeadline, readFrom, hopen, hnoclose, hq, hd]

theorem setReadDeadline_semantics_witness :
    connA.closedFlag = false ∧ connA.closeChClosed = false ∧
      connA.readQueue = [] ∧ (0 : ℤ) ≤ 0 ∧ (50 : ℤ) ≤ 100 ∧
      (readFrom (setReadDeadline connA 100 (some 50)) 4 0).res =
        .fail .timeoutErr ∧
      (0 : ℤ) < maxInt64 ∧
      (readFrom (setReadDeadline connA 100 none) 4 0).res = .blocks := by
  have h := setReadDeadline_semantics connA 100 50 0 4 (by decide) (by decide)
    (by decide) (by decide)
  exact ⟨by decide, by decide, by decide, by decide, by decide,
    h.1 (by decide), by decide, h.2.2.2.2.2.2 (by decide)⟩

/-- C9 counterexample: on a connection constructed with lifetime 600, a
successful allocation refresh stores the server-returned lifetime 1200, yet
the next allocation refresh is still scheduled after 300 time units — the
construction-time lifetime ÷ 2, not the updated lifetime ÷ 2 — because the
periodic timer keeps the interval it was built with. -/
theorem refresh_period_not_updated :
    (onRefreshTimers connA timerIDRefreshAlloc
        (.res ⟨⟨.refresh, .successResponse⟩, some 1200⟩)).lifetime = 1200 ∧
      nextAllocRefreshDelay (onRefreshTimers connA timerIDRefreshAlloc
        (.res ⟨⟨.refresh, .successResponse⟩, some 1200⟩)) = 300 ∧
      nextAllocRefreshDelay (onRefreshTimers connA timerIDRefreshAlloc
          (.res ⟨⟨.refresh, .successResponse⟩, some 1200⟩)) ≠
        (onRefreshTimers connA timerIDRefreshAlloc
          (.res ⟨⟨.refresh, .successResponse⟩, some 1200⟩)).lifetime / 2 := by
  decide

/-- C9 amended: the allocation-refresh timer's period is the
construction-time lifetime ÷ 2 and never changes — the refresh callback
leaves the timer interval untouched — while a successful refresh exchange
does update the stored lifetime to the server-returned value. -/
theorem refresh_period_is_construction_half (cfg : UDPConnConfig) (m : StunMsg)
    (lt : ℕ) (hm : m.lifetimeAttr = some lt) :
    nextAllocRefreshDelay (newUDPConn cfg) = cfg.lifetime / 2 ∧
      (∀ (c : UDPConn) (id : ℕ) (tx : TxResult),
        nextAllocRefreshDelay (onRefreshTimers c id tx) = nextAllocRefreshDelay c) ∧
      (onRefreshTimers (newUDPConn cfg) timerIDRefreshAlloc (.res m)).lifetime = lt := by
  refine ⟨rfl, ?_, ?_⟩
  · intro c id tx
    by_cases hid : id = timerIDRefreshAlloc
    · cases tx with
      | txErr => simp [onRefreshTimers, hid, refreshAllocation, nextAllocRefreshDelay]
      | res m2 =>
          cases hm2 : m2.lifetimeAttr with
          | none =>
              simp [onRefreshTimers, hid, refreshAllocation, hm2, nextAllocRefreshDelay]
          | some lt2 =>
              simp [onRefreshTimers, hid, refreshAllocation, hm2, nextAllocRefreshDelay]
    · simp [onRefreshTimers, hid]
  · simp [onRefreshTimers, timerIDRefreshAlloc, refreshAllocation, hm]

theorem refresh_period_is_construction_half_witness :
    (StunMsg.mk ⟨.refresh, .successResponse⟩ (some 1200)).lifetimeAttr = some 1200 ∧
      nextAllocRefreshDelay (newUDPConn ⟨.udp ⟨9, 9⟩, 600⟩) = 300 ∧
      (onRefreshTimers (newUDPConn ⟨.udp ⟨9, 9⟩, 600⟩) timerIDRefreshAlloc
        (.res ⟨⟨.refresh, .successResponse⟩, some 1200⟩)).lifetime = 1200 := by
  have h := refresh_period_is_construction_half ⟨.udp ⟨9, 9⟩, 600⟩
    ⟨⟨.refresh, .successResponse⟩, some 1200⟩ 1200 (by decide)
  exact ⟨by decide, h.1, h.2.2⟩
